import Mathlib

/-!
Verification of the resumable species batch downloader implemented in
`src/chirpnet/data/chirpnet_downloader.py` (`ChirpNetDownloader`).

The downloader is embedded shallowly:

* the filesystem touched by the downloader is modelled by `FS`, a list of
  existing directory paths plus an association list from file paths to
  `FileData` (a species-list CSV with its "Common Name" column, the
  checkpoint CSV with its "Species" column, or uninterpreted content);
* the external fetch capability (`cantopy.FetchManager.send_query`) and
  persist capability (`DownloadManager.download_all_recordings_in_queryresult`)
  are opaque and represented by success oracles `Caps`; their invocations are
  recorded in an event trace (`Event`);
* each method of `ChirpNetDownloader` becomes a Lean function of the same
  name; Python exceptions become `DlError` values that short-circuit the run.
-/

namespace ChirpNet

/-- Contents of a file in the model filesystem: a CSV readable as a species
list (its "Common Name" column), a CSV readable as the checkpoint file (its
"Species" column), or content not parseable as either. -/
inductive FileData where
  | csvSpecies (names : List String)
  | csvCkpt (names : List String)
  | raw
  deriving DecidableEq, Repr

/-- The model filesystem: existing directories and an association list of
files. The most recent write to a path shadows older entries. -/
structure FS where
  dirs : List String
  files : List (String × FileData)
  deriving DecidableEq, Repr

/-- `os.path.exists`: true for an existing directory or an existing file. -/
def FS.pathExists (fs : FS) (p : String) : Bool :=
  fs.dirs.contains p || (fs.files.lookup p).isSome

/-- `os.mkdir`. -/
def FS.mkdir (fs : FS) (p : String) : FS :=
  { fs with dirs := p :: fs.dirs }

/-- Read the file stored at path `p`, if any. -/
def FS.getFile (fs : FS) (p : String) : Option FileData :=
  fs.files.lookup p

/-- Write (create or overwrite) the file at path `p`. -/
def FS.setFile (fs : FS) (p : String) (d : FileData) : FS :=
  { fs with files := (p, d) :: fs.files.filter (fun e => e.1 != p) }

/-- `os.path.join` for one component (POSIX). -/
def pathJoin (a b : String) : String := a ++ "/" ++ b

/-- `os.path.basename` (POSIX): everything after the last `'/'`. -/
def basename (p : String) : String :=
  String.mk ((p.data.reverse.takeWhile (fun c => c != '/')).reverse)

/-- Python's `str.split(sep)` for a one-character separator, on the
character list of the string. Always returns a non-empty list. -/
def pySplit (sep : Char) : List Char → List (List Char)
  | [] => [[]]
  | c :: cs =>
    match pySplit sep cs with
    | [] => [[]]
    | w :: ws => if c = sep then [] :: w :: ws else (c :: w) :: ws

/-- `path.basename(species_list_path).split(".")[0]` — the species-list base
name used in the batch folder name and for the provenance copy
(`chirpnet_downloader.py`, lines 126 and 171). -/
def species_list_name (p : String) : String :=
  String.mk ((pySplit '.' (basename p).data).headI)

/-- The errors a run can raise (Python exceptions). -/
inductive DlError where
  | invalidParameter
  | sourceUnavailable
  | fetchFailure (species : String)
  | persistFailure (species : String)
  | checkpointUnreadable
  deriving DecidableEq, Repr

/-- Observable invocations of the external capabilities and of the
checkpoint append. -/
inductive Event where
  | fetch (species : String)
  | persist (species : String)
  | ckptAppend (species : String)
  deriving DecidableEq, Repr

/-- Success oracles for the opaque fetch and persist capabilities, as a
function of the query (species name, recorded year, quality, max pages). -/
structure Caps where
  fetchOk : String → Int → String → Int → Bool
  persistOk : String → Int → String → Int → Bool

/-- The outcome of one batch run: final filesystem, trace of capability /
checkpoint events in order, and the raised error if any. -/
structure RunResult where
  fs : FS
  trace : List Event
  err : Option DlError
  deriving DecidableEq, Repr

/-- The batch download folder name
`f"{species_list_name}_y{recorded_year}_q{quality}_mp{max_pages}"`
(`_initialize_download_manager`, lines 126-130). -/
def download_folder_name (species_list_path : String) (recorded_year : Int)
    (quality : String) (max_pages : Int) : String :=
  species_list_name species_list_path ++ "_y" ++ toString recorded_year
    ++ "_q" ++ quality ++ "_mp" ++ toString max_pages

/-- The batch download folder path (line 132). -/
def download_folder_path_of (species_list_path : String) (recorded_year : Int)
    (quality : String) (max_pages : Int) (downloader_base_path : String) : String :=
  pathJoin downloader_base_path
    (download_folder_name species_list_path recorded_year quality max_pages)

/-- `ChirpNetDownloader._initialize_download_manager` (lines 82-136): compute
the batch folder path, create the folder if it does not exist, and return the
path (the `DownloadManager` instance itself is opaque and carries no state in
the model). -/
def initialize_download_manager (fs : FS) (species_list_path : String)
    (recorded_year : Int) (quality : String) (max_pages : Int)
    (downloader_base_path : String) : FS × String :=
  let download_folder_path :=
    download_folder_path_of species_list_path recorded_year quality max_pages
      downloader_base_path
  if fs.pathExists download_folder_path then (fs, download_folder_path)
  else (fs.mkdir download_folder_path, download_folder_path)

/-- The batch's metadata folder path (lines 162, 205, 288). -/
def metadata_folder_path_of (download_folder_path : String) : String :=
  pathJoin download_folder_path "metadata"

/-- The checkpoint file path `metadata/already_downloaded.csv`
(lines 208-210, 291-293). -/
def already_downloaded_path_of (download_folder_path : String) : String :=
  pathJoin (metadata_folder_path_of download_folder_path) "already_downloaded.csv"

/-- `ChirpNetDownloader._initialize_metadata` (lines 138-180): if the metadata
folder already exists, skip initialization; otherwise create it, copy the
species-list file into it (`shutil.copy` raises when the source is missing),
and create the empty checkpoint file. -/
def initialize_metadata (fs : FS) (species_list_path : String)
    (download_folder_path : String) : FS × Option DlError :=
  let mfp := metadata_folder_path_of download_folder_path
  if fs.pathExists mfp then (fs, none)
  else
    let fs1 := fs.mkdir mfp
    match fs1.getFile species_list_path with
    | none => (fs1, some .sourceUnavailable)
    | some d =>
      let fs2 := fs1.setFile
        (pathJoin mfp (species_list_name species_list_path ++ ".csv")) d
      (fs2.setFile (already_downloaded_path_of download_folder_path)
        (.csvCkpt []), none)

/-- `pd.read_csv(species_list_path)["Common Name"].values.tolist()` (lines
59-62): raises when the file is missing or not readable as a species CSV. -/
def read_species_list (fs : FS) (species_list_path : String) :
    Except DlError (List String) :=
  match fs.getFile species_list_path with
  | some (.csvSpecies names) => .ok names
  | _ => .error .sourceUnavailable

/-- Read the checkpoint file's "Species" column; `none` when the file is
missing or not readable as a checkpoint CSV. -/
def read_ckpt (fs : FS) (download_folder_path : String) : Option (List String) :=
  match fs.getFile (already_downloaded_path_of download_folder_path) with
  | some (.csvCkpt names) => some names
  | _ => none

/-- `ChirpNetDownloader._filter_already_downloaded_species` (lines 182-220):
keep the species whose names are not in the checkpoint file. -/
def filter_already_downloaded_species (fs : FS) (species_list : List String)
    (download_folder_path : String) : Except DlError (List String) :=
  match read_ckpt fs download_folder_path with
  | none => .error .checkpointUnreadable
  | some already_downloaded_species =>
    .ok (species_list.filter
      (fun species => !(already_downloaded_species.contains species)))

/-- `ChirpNetDownloader._download_single_species_data` (lines 222-268): send
the query via the fetch capability, then persist the query result via the
persist capability; either may raise. -/
def download_single_species_data (caps : Caps) (species_name : String)
    (recorded_year : Int) (quality : String) (max_pages : Int) :
    List Event × Option DlError :=
  if caps.fetchOk species_name recorded_year quality max_pages then
    if caps.persistOk species_name recorded_year quality max_pages then
      ([.fetch species_name, .persist species_name], none)
    else
      ([.fetch species_name, .persist species_name],
        some (.persistFailure species_name))
  else
    ([.fetch species_name], some (.fetchFailure species_name))

/-- `ChirpNetDownloader._update_already_downloaded_metadata` (lines 270-302):
read the checkpoint CSV, append the species name, and write it back. -/
def update_already_downloaded_metadata (fs : FS) (species_name : String)
    (download_folder_path : String) : FS × List Event × Option DlError :=
  match read_ckpt fs download_folder_path with
  | none => (fs, [], some .checkpointUnreadable)
  | some already_downloaded =>
    (fs.setFile (already_downloaded_path_of download_folder_path)
      (.csvCkpt (already_downloaded ++ [species_name])),
     [.ckptAppend species_name], none)

/-- The per-species loop of `download_species_data` (lines 72-78): for each
pending species, download its data, then update the checkpoint; any error
aborts the loop and propagates. -/
def process_pending (caps : Caps) (recorded_year : Int) (quality : String)
    (max_pages : Int) (download_folder_path : String) :
    FS → List String → FS × List Event × Option DlError
  | fs, [] => (fs, [], none)
  | fs, species_name :: rest =>
    match download_single_species_data caps species_name recorded_year quality
      max_pages with
    | (ev, some e) => (fs, ev, some e)
    | (ev, none) =>
      match update_already_downloaded_metadata fs species_name
        download_folder_path with
      | (fs1, ev2, some e) => (fs1, ev ++ ev2, some e)
      | (fs1, ev2, none) =>
        let r := process_pending caps recorded_year quality max_pages
          download_folder_path fs1 rest
        (r.1, ev ++ ev2 ++ r.2.1, r.2.2)

/-- `ChirpNetDownloader.download_species_data` (lines 10-80): validate the
quality parameter, initialize the download manager and the metadata folder,
load the species list, filter out the already-downloaded species, and process
each remaining species in order. -/
def download_species_data (caps : Caps) (fs : FS) (species_list_path : String)
    (recorded_year : Int) (quality : String) (max_pages : Int)
    (downloader_base_path : String) : RunResult :=
  if (["A", "B", "C"].contains quality) = false then
    { fs := fs, trace := [], err := some .invalidParameter }
  else
    let fs1 := (initialize_download_manager fs species_list_path recorded_year
      quality max_pages downloader_base_path).1
    let download_folder_path := (initialize_download_manager fs species_list_path
      recorded_year quality max_pages downloader_base_path).2
    match initialize_metadata fs1 species_list_path download_folder_path with
      | (fs2, some e) => { fs := fs2, trace := [], err := some e }
      | (fs2, none) =>
        match read_species_list fs2 species_list_path with
        | .error e => { fs := fs2, trace := [], err := some e }
        | .ok species_list =>
          match filter_already_downloaded_species fs2 species_list
            download_folder_path with
          | .error e => { fs := fs2, trace := [], err := some e }
          | .ok pending =>
            match process_pending caps recorded_year quality max_pages
              download_folder_path fs2 pending with
            | (fs3, tr, err) => { fs := fs3, trace := tr, err := err }

/-- The trace block of one fully successful species iteration. -/
def ok_block (s : String) : List Event :=
  [.fetch s, .persist s, .ckptAppend s]

/-- The trace of a sequence of fully successful species iterations. -/
def ok_blocks : List String → List Event
  | [] => []
  | s :: rest => ok_block s ++ ok_blocks rest

/-- A sequence of batch runs with identical parameters (the same Batch
Identity); each run may see different capability outcomes. -/
def run_sequence (runs : List Caps) (fs : FS) (species_list_path : String)
    (recorded_year : Int) (quality : String) (max_pages : Int)
    (downloader_base_path : String) : FS :=
  runs.foldl
    (fun f c =>
      (download_species_data c f species_list_path recorded_year quality
        max_pages downloader_base_path).fs)
    fs

/-! ### Basic filesystem lemmas -/

lemma lookup_filter_ne {l : List (String × FileData)} {q p : String} (h : q ≠ p) :
    List.lookup q (l.filter (fun e => e.1 != p)) = List.lookup q l := by
  induction l with
  | nil => rfl
  | cons a tl ih =>
    rcases a with ⟨k, v⟩
    by_cases hkp : k = p
    · subst hkp
      have hqk : (q == k) = false := beq_eq_false_iff_ne.mpr h
      simp [List.filter_cons, List.lookup, hqk, ih]
    · have hk : (k != p) = true := bne_iff_ne.mpr hkp
      cases hqk : (q == k) <;>
        simp [List.filter_cons, hk, List.lookup, hqk, ih]

lemma getFile_setFile_self (fs : FS) (p : String) (d : FileData) :
    (fs.setFile p d).getFile p = some d := by
  simp [FS.setFile, FS.getFile, List.lookup]

lemma getFile_setFile_ne (fs : FS) {p q : String} (d : FileData) (h : q ≠ p) :
    (fs.setFile p d).getFile q = fs.getFile q := by
  have hqp : (q == p) = false := beq_eq_false_iff_ne.mpr h
  simp [FS.setFile, FS.getFile, List.lookup, hqp, lookup_filter_ne h]

lemma getFile_mkdir (fs : FS) (p q : String) :
    (fs.mkdir p).getFile q = fs.getFile q := rfl

lemma dirs_setFile (fs : FS) (p : String) (d : FileData) :
    (fs.setFile p d).dirs = fs.dirs := rfl

lemma dirs_mkdir (fs : FS) (p : String) :
    (fs.mkdir p).dirs = p :: fs.dirs := rfl

lemma pathExists_setFile (fs : FS) (p q : String) (d : FileData)
    (h : fs.pathExists q = true) : (fs.setFile p d).pathExists q = true := by
  unfold FS.pathExists at h ⊢
  by_cases hqp : q = p
  · subst hqp
    have hs : List.lookup q (fs.setFile q d).files = some d := getFile_setFile_self fs q d
    rw [show (fs.setFile q d).dirs = fs.dirs from rfl, hs]
    simp
  · have hs : List.lookup q (fs.setFile p d).files = List.lookup q fs.files :=
      getFile_setFile_ne fs d hqp
    rw [show (fs.setFile p d).dirs = fs.dirs from rfl, hs]
    exact h

lemma pathExists_mkdir (fs : FS) (p q : String)
    (h : fs.pathExists q = true) : (fs.mkdir p).pathExists q = true := by
  unfold FS.pathExists at h ⊢
  rw [show (fs.mkdir p).dirs = p :: fs.dirs from rfl,
    show (fs.mkdir p).files = fs.files from rfl]
  rcases Bool.or_eq_true_iff.mp h with h1 | h2
  · have : (p :: fs.dirs).contains q = true := by
      simp only [List.contains_cons, h1, Bool.or_true]
    rw [this, Bool.true_or]
  · rw [h2, Bool.or_true]

lemma pathExists_mkdir_self (fs : FS) (p : String) :
    (fs.mkdir p).pathExists p = true := by
  simp [FS.mkdir, FS.pathExists, List.contains_cons]

lemma read_ckpt_setFile_ckpt (fs : FS) (dfp : String) (l : List String) :
    read_ckpt (fs.setFile (already_downloaded_path_of dfp) (.csvCkpt l)) dfp
      = some l := by
  simp [read_ckpt, getFile_setFile_self]

lemma read_ckpt_mkdir (fs : FS) (p dfp : String) :
    read_ckpt (fs.mkdir p) dfp = read_ckpt fs dfp := rfl

lemma contains_iff {l : List String} {a : String} : l.contains a = true ↔ a ∈ l := by
  induction l with
  | nil => simp
  | cons b tl ih =>
    rw [List.contains_cons]
    constructor
    · intro h
      rcases Bool.or_eq_true_iff.mp h with h1 | h2
      · exact (beq_iff_eq.mp h1) ▸ List.mem_cons_self b tl
      · exact List.mem_cons_of_mem b (ih.mp h2)
    · intro h
      rcases List.mem_cons.mp h with h1 | h2
      · exact Bool.or_eq_true_iff.mpr (Or.inl (beq_iff_eq.mpr h1))
      · exact Bool.or_eq_true_iff.mpr (Or.inr (ih.mpr h2))

/-! ### The species-list base name -/

lemma pySplit_ne_nil (sep : Char) (l : List Char) : pySplit sep l ≠ [] := by
  cases l with
  | nil => simp [pySplit]
  | cons c cs =>
    unfold pySplit
    rcases h : pySplit sep cs with _ | ⟨w, ws⟩
    · simp
    · by_cases hc : c = sep <;> simp [hc]

/-- The first component of Python's `split` is the longest separator-free
initial segment. -/
lemma pySplit_headI (sep : Char) (l : List Char) :
    (pySplit sep l).headI = l.takeWhile (fun c => c != sep) := by
  induction l with
  | nil => simp [pySplit]
  | cons c cs ih =>
    unfold pySplit
    rcases h : pySplit sep cs with _ | ⟨w, ws⟩
    · exact absurd h (pySplit_ne_nil sep cs)
    · by_cases hc : c = sep
      · subst hc
        simp [List.takeWhile_cons]
      · have hb : (c != sep) = true := bne_iff_ne.mpr hc
        rw [h] at ih
        simp only [List.headI] at ih
        simp [hc, List.takeWhile_cons, hb, ih]

/-! ### Initialization lemmas -/

lemma idm_snd (fs : FS) (slp : String) (y : Int) (q : String) (mp : Int)
    (base : String) :
    (initialize_download_manager fs slp y q mp base).2 =
      download_folder_path_of slp y q mp base := by
  unfold initialize_download_manager
  dsimp only
  split <;> rfl

lemma idm_fst (fs : FS) (slp : String) (y : Int) (q : String) (mp : Int)
    (base : String) :
    (initialize_download_manager fs slp y q mp base).1 =
      (if fs.pathExists (download_folder_path_of slp y q mp base) then fs
       else fs.mkdir (download_folder_path_of slp y q mp base)) := by
  unfold initialize_download_manager
  dsimp only
  split <;> simp_all

lemma idm_eta (fs : FS) (slp : String) (y : Int) (q : String) (mp : Int)
    (base : String) :
    initialize_download_manager fs slp y q mp base =
      ((initialize_download_manager fs slp y q mp base).1,
        download_folder_path_of slp y q mp base) := by
  rw [← idm_snd fs slp y q mp base]

lemma idm_files (fs : FS) (slp : String) (y : Int) (q : String) (mp : Int)
    (base : String) :
    (initialize_download_manager fs slp y q mp base).1.files = fs.files := by
  rw [idm_fst]
  split <;> rfl

lemma idm_pathExists_dfp (fs : FS) (slp : String) (y : Int) (q : String)
    (mp : Int) (base : String) :
    (initialize_download_manager fs slp y q mp base).1.pathExists
      (download_folder_path_of slp y q mp base) = true := by
  rw [idm_fst]
  split
  · assumption
  · exact pathExists_mkdir_self _ _

lemma idm_pathExists_mono (fs : FS) (slp : String) (y : Int) (q : String)
    (mp : Int) (base : String) (p : String) (h : fs.pathExists p = true) :
    (initialize_download_manager fs slp y q mp base).1.pathExists p = true := by
  rw [idm_fst]
  split
  · exact h
  · exact pathExists_mkdir _ _ _ h

lemma idm_skip (fs : FS) (slp : String) (y : Int) (q : String) (mp : Int)
    (base : String)
    (h : fs.pathExists (download_folder_path_of slp y q mp base) = true) :
    initialize_download_manager fs slp y q mp base =
      (fs, download_folder_path_of slp y q mp base) := by
  unfold initialize_download_manager
  simp [h]

lemma initialize_metadata_skip (fs : FS) (slp dfp : String)
    (h : fs.pathExists (metadata_folder_path_of dfp) = true) :
    initialize_metadata fs slp dfp = (fs, none) := by
  unfold initialize_metadata
  simp [h]

lemma initialize_metadata_fresh (fs : FS) (slp dfp : String) (d : FileData)
    (h : fs.pathExists (metadata_folder_path_of dfp) = false)
    (hd : fs.getFile slp = some d) :
    initialize_metadata fs slp dfp =
      (((fs.mkdir (metadata_folder_path_of dfp)).setFile
          (pathJoin (metadata_folder_path_of dfp) (species_list_name slp ++ ".csv")) d).setFile
        (already_downloaded_path_of dfp) (.csvCkpt []), none) := by
  unfold initialize_metadata
  have hd1 : (fs.mkdir (metadata_folder_path_of dfp)).getFile slp = some d := hd
  simp [h, hd1]

lemma initialize_metadata_missing (fs : FS) (slp dfp : String)
    (h : fs.pathExists (metadata_folder_path_of dfp) = false)
    (hd : fs.getFile slp = none) :
    initialize_metadata fs slp dfp =
      (fs.mkdir (metadata_folder_path_of dfp), some .sourceUnavailable) := by
  unfold initialize_metadata
  have hd1 : (fs.mkdir (metadata_folder_path_of dfp)).getFile slp = none := hd
  simp [h, hd1]

lemma initialize_metadata_pathExists_mfp (fs : FS) (slp dfp : String) :
    (initialize_metadata fs slp dfp).1.pathExists
      (metadata_folder_path_of dfp) = true := by
  unfold initialize_metadata
  rcases h : fs.pathExists (metadata_folder_path_of dfp) with _ | _
  · rcases hd : (fs.mkdir (metadata_folder_path_of dfp)).getFile slp with _ | d
    · simp [h, hd, pathExists_mkdir_self]
    · simp [h, hd, pathExists_setFile, pathExists_mkdir_self]
  · simp [h]

lemma initialize_metadata_pathExists_mono (fs : FS) (slp dfp p : String)
    (hp : fs.pathExists p = true) :
    (initialize_metadata fs slp dfp).1.pathExists p = true := by
  unfold initialize_metadata
  rcases h : fs.pathExists (metadata_folder_path_of dfp) with _ | _
  · rcases hd : (fs.mkdir (metadata_folder_path_of dfp)).getFile slp with _ | d
    · simp [h, hd, pathExists_mkdir _ _ _ hp]
    · simp [h, hd, pathExists_setFile, pathExists_mkdir _ _ _ hp]
  · simp [h, hp]

/-- After metadata initialization, the checkpoint file either is untouched or
has just been created empty. -/
lemma initialize_metadata_read_ckpt (fs : FS) (slp dfp : String) :
    read_ckpt (initialize_metadata fs slp dfp).1 dfp = read_ckpt fs dfp ∨
    read_ckpt (initialize_metadata fs slp dfp).1 dfp = some [] := by
  unfold initialize_metadata
  rcases h : fs.pathExists (metadata_folder_path_of dfp) with _ | _
  · rcases hd : (fs.mkdir (metadata_folder_path_of dfp)).getFile slp with _ | d
    · left
      simp [h, hd, read_ckpt_mkdir]
    · right
      simp [h, hd, read_ckpt_setFile_ckpt]
  · left
    simp [h]

/-! ### Single-species download and checkpoint-update lemmas -/

lemma dssd_fetch_fail {caps : Caps} {s : String} {y : Int} {q : String} {mp : Int}
    (hf : caps.fetchOk s y q mp = false) :
    download_single_species_data caps s y q mp =
      ([.fetch s], some (.fetchFailure s)) := by
  unfold download_single_species_data
  simp [hf]

lemma dssd_persist_fail {caps : Caps} {s : String} {y : Int} {q : String} {mp : Int}
    (hf : caps.fetchOk s y q mp = true) (hp : caps.persistOk s y q mp = false) :
    download_single_species_data caps s y q mp =
      ([.fetch s, .persist s], some (.persistFailure s)) := by
  unfold download_single_species_data
  simp [hf, hp]

lemma dssd_ok {caps : Caps} {s : String} {y : Int} {q : String} {mp : Int}
    (hf : caps.fetchOk s y q mp = true) (hp : caps.persistOk s y q mp = true) :
    download_single_species_data caps s y q mp =
      ([.fetch s, .persist s], none) := by
  unfold download_single_species_data
  simp [hf, hp]

lemma uadm_some {fs : FS} {dfp : String} {c : List String} (s : String)
    (h : read_ckpt fs dfp = some c) :
    update_already_downloaded_metadata fs s dfp =
      (fs.setFile (already_downloaded_path_of dfp) (.csvCkpt (c ++ [s])),
        [.ckptAppend s], none) := by
  unfold update_already_downloaded_metadata
  simp [h]

lemma uadm_none {fs : FS} {dfp : String} (s : String)
    (h : read_ckpt fs dfp = none) :
    update_already_downloaded_metadata fs s dfp =
      (fs, [], some .checkpointUnreadable) := by
  unfold update_already_downloaded_metadata
  simp [h]

/-! ### Per-species loop lemmas -/

lemma pp_dirs {caps : Caps} {y : Int} {q : String} {mp : Int} {dfp : String} :
    ∀ (pending : List String) (fs : FS),
      (process_pending caps y q mp dfp fs pending).1.dirs = fs.dirs := by
  intro pending
  induction pending with
  | nil => intro fs; rfl
  | cons s rest ih =>
    intro fs
    cases hf : caps.fetchOk s y q mp with
    | false => simp [process_pending, dssd_fetch_fail hf]
    | true =>
      cases hpk : caps.persistOk s y q mp with
      | false => simp [process_pending, dssd_ok hf, dssd_persist_fail hf hpk]
      | true =>
        rcases hc : read_ckpt fs dfp with _ | c
        · simp [process_pending, dssd_ok hf hpk, uadm_none s hc]
        · simp [process_pending, dssd_ok hf hpk, uadm_some s hc, ih, dirs_setFile]

lemma pp_getFile_ne {caps : Caps} {y : Int} {q : String} {mp : Int} {dfp : String}
    {p : String} (hp : p ≠ already_downloaded_path_of dfp) :
    ∀ (pending : List String) (fs : FS),
      (process_pending caps y q mp dfp fs pending).1.getFile p = fs.getFile p := by
  intro pending
  induction pending with
  | nil => intro fs; rfl
  | cons s rest ih =>
    intro fs
    cases hf : caps.fetchOk s y q mp with
    | false => simp [process_pending, dssd_fetch_fail hf]
    | true =>
      cases hpk : caps.persistOk s y q mp with
      | false => simp [process_pending, dssd_persist_fail hf hpk]
      | true =>
        rcases hc : read_ckpt fs dfp with _ | c
        · simp [process_pending, dssd_ok hf hpk, uadm_none s hc]
        · simp [process_pending, dssd_ok hf hpk, uadm_some s hc, ih,
            getFile_setFile_ne _ _ hp]

lemma pp_pathExists {caps : Caps} {y : Int} {q : String} {mp : Int} {dfp : String}
    (p : String) :
    ∀ (pending : List String) (fs : FS), fs.pathExists p = true →
      (process_pending caps y q mp dfp fs pending).1.pathExists p = true := by
  intro pending
  induction pending with
  | nil => intro fs h; exact h
  | cons s rest ih =>
    intro fs h
    cases hf : caps.fetchOk s y q mp with
    | false => simpa [process_pending, dssd_fetch_fail hf] using h
    | true =>
      cases hpk : caps.persistOk s y q mp with
      | false => simpa [process_pending, dssd_persist_fail hf hpk] using h
      | true =>
        rcases hc : read_ckpt fs dfp with _ | c
        · simpa [process_pending, dssd_ok hf hpk, uadm_none s hc] using h
        · simp only [process_pending, dssd_ok hf hpk, uadm_some s hc]
          exact ih _ (pathExists_setFile _ _ _ _ h)

lemma pp_err_ne {caps : Caps} {y : Int} {q : String} {mp : Int} {dfp : String} :
    ∀ (pending : List String) (fs : FS),
      (process_pending caps y q mp dfp fs pending).2.2 ≠ some .sourceUnavailable ∧
      (process_pending caps y q mp dfp fs pending).2.2 ≠ some .invalidParameter := by
  intro pending
  induction pending with
  | nil => intro fs; simp [process_pending]
  | cons s rest ih =>
    intro fs
    cases hf : caps.fetchOk s y q mp with
    | false => simp [process_pending, dssd_fetch_fail hf]
    | true =>
      cases hpk : caps.persistOk s y q mp with
      | false => simp [process_pending, dssd_persist_fail hf hpk]
      | true =>
        rcases hc : read_ckpt fs dfp with _ | c
        · simp [process_pending, dssd_ok hf hpk, uadm_none s hc]
        · simpa [process_pending, dssd_ok hf hpk, uadm_some s hc] using ih _

/-- A loop that raised no error processed every pending species: all
capability calls succeeded, the trace is the full block sequence, and every
pending species was appended to the checkpoint in order. -/
lemma pp_err_none {caps : Caps} {y : Int} {q : String} {mp : Int} {dfp : String} :
    ∀ (pending : List String) (fs : FS) (c0 : List String),
      read_ckpt fs dfp = some c0 →
      (process_pending caps y q mp dfp fs pending).2.2 = none →
      read_ckpt (process_pending caps y q mp dfp fs pending).1 dfp
          = some (c0 ++ pending) ∧
      (process_pending caps y q mp dfp fs pending).2.1 = ok_blocks pending ∧
      ∀ s ∈ pending, caps.fetchOk s y q mp = true ∧ caps.persistOk s y q mp = true := by
  intro pending
  induction pending with
  | nil =>
    intro fs c0 hc _
    simpa [process_pending, ok_blocks] using hc
  | cons s rest ih =>
    intro fs c0 hc herr
    cases hf : caps.fetchOk s y q mp with
    | false => simp [process_pending, dssd_fetch_fail hf] at herr
    | true =>
      cases hpk : caps.persistOk s y q mp with
      | false => simp [process_pending, dssd_persist_fail hf hpk] at herr
      | true =>
        have hc1 : read_ckpt
            (fs.setFile (already_downloaded_path_of dfp) (.csvCkpt (c0 ++ [s]))) dfp
            = some (c0 ++ [s]) := read_ckpt_setFile_ckpt _ _ _
        simp only [process_pending, dssd_ok hf hpk, uadm_some s hc] at herr ⊢
        obtain ⟨h1, h2, h3⟩ := ih _ _ hc1 herr
        refine ⟨?_, ?_, ?_⟩
        · rw [h1]
          simp
        · rw [h2]
          simp [ok_blocks, ok_block]
        · intro x hx
          rcases List.mem_cons.mp hx with rfl | hx'
          · exact ⟨hf, hpk⟩
          · exact h3 x hx'

/-- If the pending list splits as `done ++ s :: rest` where every species of
`done` succeeds and `s` fails (in fetch or in persist), the loop halts at `s`:
the error propagates, the trace stops at `s`, and exactly the species of
`done` were appended to the checkpoint. -/
lemma pp_fail {caps : Caps} {y : Int} {q : String} {mp : Int} {dfp : String} :
    ∀ (done : List String) (fs : FS) (c0 : List String) (s : String)
      (rest : List String),
      read_ckpt fs dfp = some c0 →
      (∀ x ∈ done, caps.fetchOk x y q mp = true ∧ caps.persistOk x y q mp = true) →
      (caps.fetchOk s y q mp = false ∨
        (caps.fetchOk s y q mp = true ∧ caps.persistOk s y q mp = false)) →
      (process_pending caps y q mp dfp fs (done ++ s :: rest)).2.2 =
          some (if caps.fetchOk s y q mp then .persistFailure s
                else .fetchFailure s) ∧
      (process_pending caps y q mp dfp fs (done ++ s :: rest)).2.1 =
          ok_blocks done ++ (if caps.fetchOk s y q mp then
            [.fetch s, .persist s] else [.fetch s]) ∧
      read_ckpt (process_pending caps y q mp dfp fs (done ++ s :: rest)).1 dfp
          = some (c0 ++ done) := by
  intro done
  induction done with
  | nil =>
    intro fs c0 s rest hc _ hfail
    rcases hfail with hf | ⟨hf, hpk⟩
    · simp [process_pending, dssd_fetch_fail hf, hf, ok_blocks, hc]
    · simp [process_pending, dssd_persist_fail hf hpk, hf, ok_blocks, hc]
  | cons x done' ih =>
    intro fs c0 s rest hc hdone hfail
    obtain ⟨hfx, hpx⟩ := hdone x (List.mem_cons_self x done')
    have hc1 : read_ckpt
        (fs.setFile (already_downloaded_path_of dfp) (.csvCkpt (c0 ++ [x]))) dfp
        = some (c0 ++ [x]) := read_ckpt_setFile_ckpt _ _ _
    have hdone' : ∀ z ∈ done', caps.fetchOk z y q mp = true ∧
        caps.persistOk z y q mp = true :=
      fun z hz => hdone z (List.mem_cons_of_mem x hz)
    obtain ⟨h1, h2, h3⟩ := ih _ _ s rest hc1 hdone' hfail
    simp only [List.cons_append, process_pending, dssd_ok hfx hpx, uadm_some x hc,
      List.append_eq]
    refine ⟨h1, ?_, ?_⟩
    · rw [h2]
      simp [ok_blocks, ok_block]
    · rw [h3]
      simp

/-- Whatever the capability outcomes, the loop appends some prefix of the
pending list to the checkpoint, in order, and never removes an entry. -/
lemma pp_decompose {caps : Caps} {y : Int} {q : String} {mp : Int} {dfp : String} :
    ∀ (pending : List String) (fs : FS) (c0 : List String),
      read_ckpt fs dfp = some c0 →
      ∃ done rest, pending = done ++ rest ∧
        read_ckpt (process_pending caps y q mp dfp fs pending).1 dfp
          = some (c0 ++ done) := by
  intro pending
  induction pending with
  | nil =>
    intro fs c0 hc
    exact ⟨[], [], rfl, by simpa [process_pending] using hc⟩
  | cons s rest0 ih =>
    intro fs c0 hc
    cases hf : caps.fetchOk s y q mp with
    | false =>
      refine ⟨[], s :: rest0, rfl, ?_⟩
      simpa [process_pending, dssd_fetch_fail hf] using hc
    | true =>
      cases hpk : caps.persistOk s y q mp with
      | false =>
        refine ⟨[], s :: rest0, rfl, ?_⟩
        simpa [process_pending, dssd_persist_fail hf hpk] using hc
      | true =>
        have hc1 : read_ckpt
            (fs.setFile (already_downloaded_path_of dfp) (.csvCkpt (c0 ++ [s]))) dfp
            = some (c0 ++ [s]) := read_ckpt_setFile_ckpt _ _ _
        obtain ⟨done', rest', hsplit, hread⟩ := ih _ _ hc1
        refine ⟨s :: done', rest', by simp [hsplit], ?_⟩
        simp only [process_pending, dssd_ok hf hpk, uadm_some s hc]
        rw [hread]
        simp

/-! ### Trace-order lemmas -/

lemma pre_nil {α : Type} {t : List α} (h : t <+: ([] : List α)) : t = [] := by
  obtain ⟨u, hu⟩ := h
  exact (List.append_eq_nil.mp hu).1

lemma pre_of_cons {α : Type} {t : List α} {a : α} {l : List α} (h : t <+: a :: l) :
    t = [] ∨ ∃ t', t = a :: t' ∧ t' <+: l := by
  cases t with
  | nil => exact Or.inl rfl
  | cons x t' =>
    obtain ⟨u, hu⟩ := h
    rw [List.cons_append] at hu
    injection hu with h1 h2
    exact Or.inr ⟨t', by rw [h1], ⟨u, h2⟩⟩

/-- In any initial segment of the loop trace, a checkpoint append for `S` is
preceded by a fetch and a persist for `S`, and both capability calls for `S`
succeeded. -/
lemma pp_ckpt_order {caps : Caps} {y : Int} {q : String} {mp : Int} {dfp : String}
    (S : String) :
    ∀ (pending : List String) (fs : FS) (t : List Event),
      t <+: (process_pending caps y q mp dfp fs pending).2.1 →
      Event.ckptAppend S ∈ t →
      Event.fetch S ∈ t ∧ Event.persist S ∈ t ∧
      caps.fetchOk S y q mp = true ∧ caps.persistOk S y q mp = true := by
  intro pending
  induction pending with
  | nil =>
    intro fs t hpre hmem
    have hnil : (process_pending caps y q mp dfp fs []).2.1 = ([] : List Event) := rfl
    rw [hnil] at hpre
    rw [pre_nil hpre] at hmem
    exact absurd hmem (List.not_mem_nil _)
  | cons s rest ih =>
    intro fs t hpre hmem
    cases hf : caps.fetchOk s y q mp with
    | false =>
      have ht : (process_pending caps y q mp dfp fs (s :: rest)).2.1
          = [Event.fetch s] := by
        simp [process_pending, dssd_fetch_fail hf]
      rw [ht] at hpre
      rcases pre_of_cons hpre with rfl | ⟨t1, rfl, hp1⟩
      · exact absurd hmem (List.not_mem_nil _)
      · rw [pre_nil hp1] at hmem
        simp at hmem
    | true =>
      cases hpk : caps.persistOk s y q mp with
      | false =>
        have ht : (process_pending caps y q mp dfp fs (s :: rest)).2.1
            = [Event.fetch s, Event.persist s] := by
          simp [process_pending, dssd_persist_fail hf hpk]
        rw [ht] at hpre
        rcases pre_of_cons hpre with rfl | ⟨t1, rfl, hp1⟩
        · exact absurd hmem (List.not_mem_nil _)
        rcases pre_of_cons hp1 with rfl | ⟨t2, rfl, hp2⟩
        · simp at hmem
        · rw [pre_nil hp2] at hmem
          simp at hmem
      | true =>
        rcases hc : read_ckpt fs dfp with _ | c
        · have ht : (process_pending caps y q mp dfp fs (s :: rest)).2.1
              = [Event.fetch s, Event.persist s] := by
            simp [process_pending, dssd_ok hf hpk, uadm_none s hc]
          rw [ht] at hpre
          rcases pre_of_cons hpre with rfl | ⟨t1, rfl, hp1⟩
          · exact absurd hmem (List.not_mem_nil _)
          rcases pre_of_cons hp1 with rfl | ⟨t2, rfl, hp2⟩
          · simp at hmem
          · rw [pre_nil hp2] at hmem
            simp at hmem
        · have ht : (process_pending caps y q mp dfp fs (s :: rest)).2.1
              = Event.fetch s :: Event.persist s :: Event.ckptAppend s ::
                (process_pending caps y q mp dfp
                  (fs.setFile (already_downloaded_path_of dfp)
                    (.csvCkpt (c ++ [s]))) rest).2.1 := by
            simp [process_pending, dssd_ok hf hpk, uadm_some s hc]
          rw [ht] at hpre
          rcases pre_of_cons hpre with rfl | ⟨t1, rfl, hp1⟩
          · exact absurd hmem (List.not_mem_nil _)
          rcases pre_of_cons hp1 with rfl | ⟨t2, rfl, hp2⟩
          · simp at hmem
          rcases pre_of_cons hp2 with rfl | ⟨t3, rfl, hp3⟩
          · simp at hmem
          rcases List.mem_cons.mp hmem with h1 | hmem1
          · exact absurd h1 (by simp)
          rcases List.mem_cons.mp hmem1 with h2 | hmem2
          · exact absurd h2 (by simp)
          rcases List.mem_cons.mp hmem2 with h3 | hmem3
          · have hS : S = s := by
              injection h3
            subst hS
            exact ⟨by simp, by simp, hf, hpk⟩
          · obtain ⟨hfe, hpe, ho1, ho2⟩ := ih _ t3 hp3 hmem3
            exact ⟨by simp [hfe], by simp [hpe], ho1, ho2⟩

/-! ### Run-level lemmas -/

lemma run_quality_invalid (caps : Caps) (fs : FS) (slp : String) (y : Int)
    (q : String) (mp : Int) (base : String)
    (hq : (["A", "B", "C"].contains q) = false) :
    download_species_data caps fs slp y q mp base =
      { fs := fs, trace := [], err := some .invalidParameter } := by
  unfold download_species_data
  rw [if_pos hq]

lemma run_eq (caps : Caps) (fs : FS) (slp : String) (y : Int) (q : String)
    (mp : Int) (base : String) (hq : (["A", "B", "C"].contains q) = true) :
    download_species_data caps fs slp y q mp base =
      (match initialize_metadata (initialize_download_manager fs slp y q mp base).1
          slp (download_folder_path_of slp y q mp base) with
       | (fs2, some e) => { fs := fs2, trace := [], err := some e }
       | (fs2, none) =>
         match read_species_list fs2 slp with
         | .error e => { fs := fs2, trace := [], err := some e }
         | .ok species_list =>
           match filter_already_downloaded_species fs2 species_list
               (download_folder_path_of slp y q mp base) with
           | .error e => { fs := fs2, trace := [], err := some e }
           | .ok pending =>
             match process_pending caps y q mp
                 (download_folder_path_of slp y q mp base) fs2 pending with
             | (fs3, tr, err) => { fs := fs3, trace := tr, err := err }) := by
  have hq' : ¬((["A", "B", "C"].contains q) = false) := by
    intro h
    rw [hq] at h
    exact Bool.noConfusion h
  unfold download_species_data
  rw [if_neg hq']
  dsimp only
  rw [idm_snd]

lemma filter_ads_eq {fs : FS} {dfp : String} {c0 : List String}
    (names : List String) (hc : read_ckpt fs dfp = some c0) :
    filter_already_downloaded_species fs names dfp =
      .ok (names.filter (fun s => !(c0.contains s))) := by
  unfold filter_already_downloaded_species
  rw [hc]

lemma filter_ads_err {fs : FS} {dfp : String} (names : List String)
    (hc : read_ckpt fs dfp = none) :
    filter_already_downloaded_species fs names dfp =
      .error .checkpointUnreadable := by
  unfold filter_already_downloaded_species
  rw [hc]

lemma filter_ads_inv {fs : FS} {dfp : String} {names pending : List String}
    (h : filter_already_downloaded_species fs names dfp = .ok pending) :
    ∃ c0, read_ckpt fs dfp = some c0 ∧
      pending = names.filter (fun s => !(c0.contains s)) := by
  unfold filter_already_downloaded_species at h
  rcases hc : read_ckpt fs dfp with _ | c0 <;> rw [hc] at h
  · simp at h
  · simp only [Except.ok.injEq] at h
    exact ⟨c0, rfl, h.symm⟩

/-- A run that returned without error went through the whole pipeline: valid
quality, successful metadata initialization, successful species-list load,
readable checkpoint, and the per-species loop over the computed pending
list. -/
lemma run_err_none (caps : Caps) (fs : FS) (slp : String) (y : Int) (q : String)
    (mp : Int) (base : String)
    (h : (download_species_data caps fs slp y q mp base).err = none) :
    ∃ fs2 names c0,
      (["A", "B", "C"].contains q) = true ∧
      initialize_metadata (initialize_download_manager fs slp y q mp base).1 slp
        (download_folder_path_of slp y q mp base) = (fs2, none) ∧
      read_species_list fs2 slp = .ok names ∧
      read_ckpt fs2 (download_folder_path_of slp y q mp base) = some c0 ∧
      download_species_data caps fs slp y q mp base =
        { fs := (process_pending caps y q mp (download_folder_path_of slp y q mp base)
            fs2 (names.filter (fun s => !(c0.contains s)))).1,
          trace := (process_pending caps y q mp (download_folder_path_of slp y q mp base)
            fs2 (names.filter (fun s => !(c0.contains s)))).2.1,
          err := (process_pending caps y q mp (download_folder_path_of slp y q mp base)
            fs2 (names.filter (fun s => !(c0.contains s)))).2.2 } ∧
      (process_pending caps y q mp (download_folder_path_of slp y q mp base)
        fs2 (names.filter (fun s => !(c0.contains s)))).2.2 = none := by
  have hq : (["A", "B", "C"].contains q) = true := by
    cases hq' : (["A", "B", "C"].contains q) with
    | false => rw [run_quality_invalid caps fs slp y q mp base hq'] at h; simp at h
    | true => rfl
  rw [run_eq caps fs slp y q mp base hq] at h
  split at h
  next fs2 e heq => simp at h
  next fs2 heq =>
    split at h
    next e hrd => simp at h
    next names hrd =>
      split at h
      next e hfl => simp at h
      next pending hfl =>
        split at h
        next fs3 tr err hp =>
          obtain ⟨c0, hc, hpend⟩ := filter_ads_inv hfl
          subst hpend
          refine ⟨fs2, names, c0, hq, heq, hrd, hc, ?_, ?_⟩
          · rw [run_eq caps fs slp y q mp base hq, heq]
            dsimp only
            rw [hrd]
            dsimp only
            rw [filter_ads_eq names hc]
          · rw [hp]
            simpa using h

lemma read_species_list_ok_inv {fs : FS} {slp : String} {names : List String}
    (h : read_species_list fs slp = .ok names) :
    fs.getFile slp = some (.csvSpecies names) := by
  unfold read_species_list at h
  split at h <;> simp_all

lemma read_species_list_err {fs : FS} {slp : String} {e : DlError}
    (h : read_species_list fs slp = .error e) : e = .sourceUnavailable := by
  unfold read_species_list at h
  split at h <;> simp_all

lemma read_species_list_of_getFile {fs : FS} {slp : String} {names : List String}
    (h : fs.getFile slp = some (.csvSpecies names)) :
    read_species_list fs slp = .ok names := by
  unfold read_species_list
  rw [h]

lemma read_species_list_congr {fs1 fs2 : FS} {slp : String}
    (h : fs1.getFile slp = fs2.getFile slp) :
    read_species_list fs1 slp = read_species_list fs2 slp := by
  unfold read_species_list
  rw [h]

lemma read_ckpt_some_inv {fs : FS} {dfp : String} {c : List String}
    (h : read_ckpt fs dfp = some c) :
    fs.getFile (already_downloaded_path_of dfp) = some (.csvCkpt c) := by
  unfold read_ckpt at h
  split at h <;> simp_all

lemma filter_ads_err_inv {fs : FS} {dfp : String} {names : List String}
    {e : DlError}
    (h : filter_already_downloaded_species fs names dfp = .error e) :
    e = .checkpointUnreadable := by
  unfold filter_already_downloaded_species at h
  split at h <;> simp_all

lemma initialize_metadata_err {fs : FS} {slp dfp : String} {fs2 : FS}
    {e : DlError} (h : initialize_metadata fs slp dfp = (fs2, some e)) :
    e = .sourceUnavailable := by
  rcases hex : fs.pathExists (metadata_folder_path_of dfp) with _ | _
  · rcases hd : fs.getFile slp with _ | d
    · rw [initialize_metadata_missing fs slp dfp hex hd] at h
      simp only [Prod.mk.injEq, Option.some.injEq] at h
      exact h.2.symm
    · rw [initialize_metadata_fresh fs slp dfp d hex hd] at h
      simp at h
  · rw [initialize_metadata_skip fs slp dfp hex] at h
    simp at h

lemma idm_getFile (fs : FS) (slp : String) (y : Int) (q : String) (mp : Int)
    (base : String) (p : String) :
    (initialize_download_manager fs slp y q mp base).1.getFile p = fs.getFile p := by
  unfold FS.getFile
  rw [idm_files]

lemma idm_read_ckpt (fs : FS) (slp : String) (y : Int) (q : String) (mp : Int)
    (base : String) (dfp : String) :
    read_ckpt (initialize_download_manager fs slp y q mp base).1 dfp
      = read_ckpt fs dfp := by
  unfold read_ckpt
  rw [idm_getFile]

lemma contains_eq_false_iff {l : List String} {a : String} :
    l.contains a = false ↔ a ∉ l := by
  constructor
  · intro h ha
    rw [contains_iff.mpr ha] at h
    exact Bool.noConfusion h
  · intro ha
    cases hc : l.contains a with
    | false => rfl
    | true => exact absurd (contains_iff.mp hc) ha

/-- When the batch's metadata folder already exists, a run (whatever its
outcome) keeps the metadata folder, touches no file other than the checkpoint
file, and only appends to the checkpoint a prefix of the pending list it
computed. -/
lemma run_preserves (caps : Caps) (fs : FS) (slp : String) (y : Int)
    (q : String) (mp : Int) (base : String)
    (hmfp : fs.pathExists
      (metadata_folder_path_of (download_folder_path_of slp y q mp base)) = true) :
    (download_species_data caps fs slp y q mp base).fs.pathExists
      (metadata_folder_path_of (download_folder_path_of slp y q mp base)) = true ∧
    (∀ p, p ≠ already_downloaded_path_of (download_folder_path_of slp y q mp base) →
      (download_species_data caps fs slp y q mp base).fs.getFile p = fs.getFile p) ∧
    (∀ c0, read_ckpt fs (download_folder_path_of slp y q mp base) = some c0 →
      ∃ d, read_ckpt (download_species_data caps fs slp y q mp base).fs
          (download_folder_path_of slp y q mp base) = some (c0 ++ d) ∧
        (d = [] ∨ ∃ names rest, read_species_list fs slp = .ok names ∧
          names.filter (fun x => !(c0.contains x)) = d ++ rest)) := by
  cases hq : (["A", "B", "C"].contains q) with
  | false =>
    rw [run_quality_invalid caps fs slp y q mp base hq]
    exact ⟨hmfp, fun p _ => rfl, fun c0 hc => ⟨[], by simpa using hc, Or.inl rfl⟩⟩
  | true =>
    have hmfp1 : (initialize_download_manager fs slp y q mp base).1.pathExists
        (metadata_folder_path_of (download_folder_path_of slp y q mp base)) = true :=
      idm_pathExists_mono fs slp y q mp base _ hmfp
    have hskip : initialize_metadata (initialize_download_manager fs slp y q mp base).1
        slp (download_folder_path_of slp y q mp base)
        = ((initialize_download_manager fs slp y q mp base).1, none) :=
      initialize_metadata_skip _ slp _ hmfp1
    rw [run_eq caps fs slp y q mp base hq, hskip]
    dsimp only
    rcases hrd : read_species_list (initialize_download_manager fs slp y q mp base).1
        slp with e | names
    · dsimp only
      refine ⟨hmfp1, fun p _ => idm_getFile fs slp y q mp base p, fun c0 hc => ?_⟩
      refine ⟨[], ?_, Or.inl rfl⟩
      rw [idm_read_ckpt]
      simpa using hc
    · dsimp only
      rcases hc1 : read_ckpt (initialize_download_manager fs slp y q mp base).1
          (download_folder_path_of slp y q mp base) with _ | c0'
      · rw [filter_ads_err names hc1]
        dsimp only
        refine ⟨hmfp1, fun p _ => idm_getFile fs slp y q mp base p, fun c0 hc => ?_⟩
        rw [idm_read_ckpt fs slp y q mp base] at hc1
        rw [hc1] at hc
        exact absurd hc (by simp)
      · rw [filter_ads_eq names hc1]
        dsimp only
        rcases hp : process_pending caps y q mp (download_folder_path_of slp y q mp base)
            (initialize_download_manager fs slp y q mp base).1
            (names.filter (fun s => !(c0'.contains s))) with ⟨fs3, tr, err⟩
        dsimp only
        refine ⟨?_, ?_, ?_⟩
        · have := @pp_pathExists caps y q mp (download_folder_path_of slp y q mp base)
            (metadata_folder_path_of (download_folder_path_of slp y q mp base))
            (names.filter (fun s => !(c0'.contains s))) _ hmfp1
          rw [hp] at this
          exact this
        · intro p hpne
          have h1 := @pp_getFile_ne caps y q mp
            (download_folder_path_of slp y q mp base) p hpne
            (names.filter (fun s => !(c0'.contains s)))
            (initialize_download_manager fs slp y q mp base).1
          rw [hp] at h1
          rw [h1]
          exact idm_getFile fs slp y q mp base p
        · intro c0 hc
          have hc0' : c0' = c0 := by
            rw [idm_read_ckpt fs slp y q mp base] at hc1
            rw [hc1] at hc
            exact (Option.some.injEq _ _ ▸ hc)
          subst hc0'
          obtain ⟨done, rest, hsplit, hread⟩ := @pp_decompose caps y q mp
            (download_folder_path_of slp y q mp base)
            (names.filter (fun s => !(c0'.contains s))) _ _ hc1
          rw [hp] at hread
          refine ⟨done, hread, Or.inr ⟨names, rest, ?_, hsplit.symm ▸ rfl⟩⟩
          rw [← hrd]
          exact (read_species_list_congr (idm_getFile fs slp y q mp base slp)).symm

lemma bang_contains_eq (c0 : List String) (x : String) :
    (!(c0.contains x)) = decide (x ∉ c0) := by
  by_cases hx : x ∈ c0
  · simp [contains_iff.mpr hx, hx]
  · simp [contains_eq_false_iff.mpr hx, hx]

/-! ### The claims -/

/-- C10: the species-list base name used in the Batch Identity and for the
provenance copy is the basename truncated at the first `'.'` character (not
the filename with only its final extension removed): `"red.list.csv"` yields
`"red"`, not `"red.list"`. -/
theorem C10_base_name_truncates_at_first_dot (p : String) :
    species_list_name p =
      String.mk ((basename p).data.takeWhile (fun c => c != '.')) ∧
    species_list_name "red.list.csv" = "red" ∧
    species_list_name "dir/red.list.csv" = "red" ∧
    species_list_name "red.list.csv" ≠ "red.list" := by
  refine ⟨?_, by decide, by decide, by decide⟩
  unfold species_list_name
  rw [pySplit_headI]

/-- C7: the Batch Identity (download-folder name) is a deterministic function
of the species-list base name, year, quality and max_pages, in the exact
format `"{name}_y{year}_q{quality}_mp{maxPages}"`; a species list named
`"redlist"` with year 2020, quality `"A"`, max_pages 5 always yields
`"redlist_y2020_qA_mp5"`. -/
theorem C7_batch_identity_deterministic (fs fs2 : FS) (slp slp2 : String)
    (y : Int) (q : String) (mp : Int) (base : String)
    (hname : species_list_name slp2 = species_list_name slp) :
    (initialize_download_manager fs slp y q mp base).2 =
      pathJoin base (species_list_name slp ++ "_y" ++ toString y ++ "_q" ++ q
        ++ "_mp" ++ toString mp) ∧
    (initialize_download_manager fs2 slp2 y q mp base).2 =
      (initialize_download_manager fs slp y q mp base).2 ∧
    download_folder_name "redlist.csv" 2020 "A" 5 = "redlist_y2020_qA_mp5" := by
  refine ⟨?_, ?_, by decide⟩
  · rw [idm_snd]
    rfl
  · rw [idm_snd, idm_snd]
    unfold download_folder_path_of download_folder_name
    rw [hname]

/-- C7 witness: two calls whose species lists have the same base name
`"redlist"` resolve to the same batch folder, and the folder name is exactly
`"redlist_y2020_qA_mp5"`. -/
theorem C7_batch_identity_deterministic_witness :
    (initialize_download_manager ⟨[], []⟩ "redlist.csv" 2020 "A" 5 "base").2 =
      pathJoin "base" (species_list_name "redlist.csv" ++ "_y"
        ++ toString (2020 : Int) ++ "_q" ++ "A" ++ "_mp" ++ toString (5 : Int)) ∧
    (initialize_download_manager ⟨["x"], []⟩ "dir/redlist.txt" 2020 "A" 5 "base").2 =
      (initialize_download_manager ⟨[], []⟩ "redlist.csv" 2020 "A" 5 "base").2 ∧
    download_folder_name "redlist.csv" 2020 "A" 5 = "redlist_y2020_qA_mp5" :=
  C7_batch_identity_deterministic ⟨[], []⟩ ⟨["x"], []⟩ "redlist.csv"
    "dir/redlist.txt" 2020 "A" 5 "base" (by decide)

/-- C3: the pending list equals the species list with every name present in
the checkpoint store removed (exact string equality), and the surviving names
keep their original relative order (the pending list is a sublist of the
species list). -/
theorem C3_pending_list_is_ordered_set_difference (fs : FS) (dfp : String)
    (species_list c0 : List String) (hc : read_ckpt fs dfp = some c0) :
    ∃ pending,
      filter_already_downloaded_species fs species_list dfp = .ok pending ∧
      pending = species_list.filter (fun s => decide (s ∉ c0)) ∧
      pending.Sublist species_list ∧
      ∀ s, s ∈ pending ↔ (s ∈ species_list ∧ s ∉ c0) := by
  refine ⟨species_list.filter (fun s => !(c0.contains s)),
    filter_ads_eq species_list hc, ?_, List.filter_sublist _, ?_⟩
  · apply List.filter_congr
    intro x _
    exact bang_contains_eq c0 x
  · intro s
    rw [List.mem_filter]
    constructor
    · rintro ⟨hs, hb⟩
      refine ⟨hs, ?_⟩
      intro hmem
      rw [contains_iff.mpr hmem] at hb
      exact Bool.noConfusion hb
    · rintro ⟨hs, hb⟩
      exact ⟨hs, by rw [contains_eq_false_iff.mpr hb]; rfl⟩

/-- C3 witness: with `["Wren"]` checkpointed, the pending list computed from
`["Robin", "Wren", "Owl"]` satisfies the set-difference and the
order-preservation properties. -/
theorem C3_pending_list_is_ordered_set_difference_witness :
    ∃ pending,
      filter_already_downloaded_species
          ⟨[], [("d/metadata/already_downloaded.csv", .csvCkpt ["Wren"])]⟩
          ["Robin", "Wren", "Owl"] "d" = .ok pending ∧
      pending = ["Robin", "Wren", "Owl"].filter (fun s => decide (s ∉ ["Wren"])) ∧
      pending.Sublist ["Robin", "Wren", "Owl"] ∧
      ∀ s, s ∈ pending ↔ (s ∈ ["Robin", "Wren", "Owl"] ∧ s ∉ ["Wren"]) :=
  C3_pending_list_is_ordered_set_difference
    ⟨[], [("d/metadata/already_downloaded.csv", .csvCkpt ["Wren"])]⟩ "d"
    ["Robin", "Wren", "Owl"] ["Wren"] (by decide)

/-- C9: setup is initialize-once and idempotent: when the metadata folder does
not yet exist, it is created, the species list is copied into it, and an empty
checkpoint store is created; when it already exists, initialization is skipped
entirely (the filesystem — in particular the existing checkpoint store — is
returned unchanged). -/
theorem C9_initialization_once_and_idempotent (fs : FS) (slp dfp : String)
    (d : FileData) :
    (fs.pathExists (metadata_folder_path_of dfp) = false →
      fs.getFile slp = some d →
      initialize_metadata fs slp dfp =
        (((fs.mkdir (metadata_folder_path_of dfp)).setFile
            (pathJoin (metadata_folder_path_of dfp)
              (species_list_name slp ++ ".csv")) d).setFile
          (already_downloaded_path_of dfp) (.csvCkpt []), none) ∧
      read_ckpt (initialize_metadata fs slp dfp).1 dfp = some []) ∧
    (fs.pathExists (metadata_folder_path_of dfp) = true →
      initialize_metadata fs slp dfp = (fs, none)) := by
  constructor
  · intro h hd
    have he := initialize_metadata_fresh fs slp dfp d h hd
    refine ⟨he, ?_⟩
    rw [he]
    exact read_ckpt_setFile_ckpt _ _ _
  · exact initialize_metadata_skip fs slp dfp

/-- C9 witness: a first encounter creates the metadata folder, the provenance
copy and the empty checkpoint; a second encounter of the resulting state skips
initialization and returns the state unchanged. -/
theorem C9_initialization_once_and_idempotent_witness :
    (initialize_metadata ⟨["d"], [("l.csv", .csvSpecies ["Robin"])]⟩ "l.csv" "d" =
      ((((⟨["d"], [("l.csv", .csvSpecies ["Robin"])]⟩ : FS).mkdir
            (metadata_folder_path_of "d")).setFile
          (pathJoin (metadata_folder_path_of "d")
            (species_list_name "l.csv" ++ ".csv")) (.csvSpecies ["Robin"])).setFile
        (already_downloaded_path_of "d") (.csvCkpt []), none) ∧
      read_ckpt (initialize_metadata ⟨["d"], [("l.csv", .csvSpecies ["Robin"])]⟩
        "l.csv" "d").1 "d" = some []) ∧
    initialize_metadata
        ⟨["d/metadata", "d"], [("d/metadata/already_downloaded.csv", .csvCkpt ["Owl"])]⟩
        "l.csv" "d" =
      (⟨["d/metadata", "d"], [("d/metadata/already_downloaded.csv", .csvCkpt ["Owl"])]⟩,
        none) :=
  ⟨(C9_initialization_once_and_idempotent
      ⟨["d"], [("l.csv", .csvSpecies ["Robin"])]⟩ "l.csv" "d"
      (.csvSpecies ["Robin"])).1 (by decide) (by decide),
    (C9_initialization_once_and_idempotent
      ⟨["d/metadata", "d"], [("d/metadata/already_downloaded.csv", .csvCkpt ["Owl"])]⟩
      "l.csv" "d" (.csvSpecies ["Robin"])).2 (by decide)⟩

/-- C6: a quality value outside `{"A", "B", "C"}` raises the invalid-parameter
error before any fetch, persist or filesystem operation (the returned state is
the input state and the event trace is empty); a quality value in
`{"A", "B", "C"}` never raises the invalid-parameter error. -/
theorem C6_quality_validated_before_any_io (caps : Caps) (fs : FS)
    (slp : String) (y : Int) (q : String) (mp : Int) (base : String) :
    ((["A", "B", "C"].contains q) = false →
      download_species_data caps fs slp y q mp base =
        { fs := fs, trace := [], err := some .invalidParameter }) ∧
    ((["A", "B", "C"].contains q) = true →
      (download_species_data caps fs slp y q mp base).err ≠
        some .invalidParameter) := by
  constructor
  · exact run_quality_invalid caps fs slp y q mp base
  · intro hq hcon
    rw [run_eq caps fs slp y q mp base hq] at hcon
    split at hcon
    next fs2 e heq =>
      have he : e = .sourceUnavailable := initialize_metadata_err heq
      subst he
      simp at hcon
    next fs2 heq =>
      split at hcon
      next e hrd =>
        have he : e = .sourceUnavailable := read_species_list_err hrd
        subst he
        simp at hcon
      next names hrd =>
        split at hcon
        next e hfl =>
          have he : e = .checkpointUnreadable := filter_ads_err_inv hfl
          subst he
          simp at hcon
        next pending hfl =>
          split at hcon
          next fs3 tr err hp =>
            simp only at hcon
            have hne := (@pp_err_ne caps y q mp
              (download_folder_path_of slp y q mp base) pending fs2).2
            rw [hp] at hne
            exact hne hcon

/-- C6 witness: `quality = "D"` fails with the invalid-parameter error leaving
the state untouched and the trace empty; `quality = "A"` does not raise it. -/
theorem C6_quality_validated_before_any_io_witness :
    download_species_data ⟨fun _ _ _ _ => true, fun _ _ _ _ => true⟩
        ⟨["base"], [("l.csv", .csvSpecies ["Robin"])]⟩ "l.csv" 2020 "D" 5 "base" =
      { fs := ⟨["base"], [("l.csv", .csvSpecies ["Robin"])]⟩, trace := [],
        err := some .invalidParameter } ∧
    (download_species_data ⟨fun _ _ _ _ => true, fun _ _ _ _ => true⟩
        ⟨["base"], [("l.csv", .csvSpecies ["Robin"])]⟩ "l.csv" 2020 "A" 5 "base").err ≠
      some .invalidParameter :=
  ⟨(C6_quality_validated_before_any_io ⟨fun _ _ _ _ => true, fun _ _ _ _ => true⟩
      ⟨["base"], [("l.csv", .csvSpecies ["Robin"])]⟩ "l.csv" 2020 "D" 5 "base").1
      (by decide),
    (C6_quality_validated_before_any_io ⟨fun _ _ _ _ => true, fun _ _ _ _ => true⟩
      ⟨["base"], [("l.csv", .csvSpecies ["Robin"])]⟩ "l.csv" 2020 "A" 5 "base").2
      (by decide)⟩

/-- C1: in every initial segment of a run's trace, a checkpoint append for a
species is preceded by its fetch and its persist, and both capability calls
for it succeeded; in particular, if fetch or persist raises for species `S`,
no checkpoint entry for `S` is written by that run. -/
theorem C1_checkpoint_only_after_fetch_and_persist (caps : Caps) (fs : FS)
    (slp : String) (y : Int) (q : String) (mp : Int) (base : String)
    (S : String) :
    (∀ t, t <+: (download_species_data caps fs slp y q mp base).trace →
      Event.ckptAppend S ∈ t →
      Event.fetch S ∈ t ∧ Event.persist S ∈ t ∧
      caps.fetchOk S y q mp = true ∧ caps.persistOk S y q mp = true) ∧
    ((caps.fetchOk S y q mp = false ∨ caps.persistOk S y q mp = false) →
      Event.ckptAppend S ∉ (download_species_data caps fs slp y q mp base).trace) := by
  have main : ∀ t, t <+: (download_species_data caps fs slp y q mp base).trace →
      Event.ckptAppend S ∈ t →
      Event.fetch S ∈ t ∧ Event.persist S ∈ t ∧
      caps.fetchOk S y q mp = true ∧ caps.persistOk S y q mp = true := by
    intro t hpre hmem
    cases hq : (["A", "B", "C"].contains q) with
    | false =>
      rw [run_quality_invalid caps fs slp y q mp base hq] at hpre
      rw [pre_nil hpre] at hmem
      exact absurd hmem (List.not_mem_nil _)
    | true =>
      rw [run_eq caps fs slp y q mp base hq] at hpre
      split at hpre
      next fs2 e heq =>
        rw [pre_nil hpre] at hmem
        exact absurd hmem (List.not_mem_nil _)
      next fs2 heq =>
        split at hpre
        next e hrd =>
          rw [pre_nil hpre] at hmem
          exact absurd hmem (List.not_mem_nil _)
        next names hrd =>
          split at hpre
          next e hfl =>
            rw [pre_nil hpre] at hmem
            exact absurd hmem (List.not_mem_nil _)
          next pending hfl =>
            split at hpre
            next fs3 tr err hp =>
              have htr : tr = (process_pending caps y q mp
                  (download_folder_path_of slp y q mp base) fs2 pending).2.1 := by
                rw [hp]
              rw [show ({ fs := fs3, trace := tr, err := err } : RunResult).trace = tr
                from rfl, htr] at hpre
              exact pp_ckpt_order S pending fs2 t hpre hmem
  refine ⟨main, ?_⟩
  intro hfail hmem
  obtain ⟨_, _, ho1, ho2⟩ := main _ ⟨[], List.append_nil _⟩ hmem
  rcases hfail with hf | hpk
  · rw [ho1] at hf
    exact Bool.noConfusion hf
  · rw [ho2] at hpk
    exact Bool.noConfusion hpk

/-- C1 witness: in a fully successful one-species run the trace contains the
fetch and persist for that species, and the capability oracles are true. -/
theorem C1_checkpoint_only_after_fetch_and_persist_witness :
    Event.fetch "Robin" ∈ (download_species_data
        ⟨fun _ _ _ _ => true, fun _ _ _ _ => true⟩
        ⟨["base"], [("l.csv", .csvSpecies ["Robin"])]⟩
        "l.csv" 2020 "A" 5 "base").trace ∧
    Event.persist "Robin" ∈ (download_species_data
        ⟨fun _ _ _ _ => true, fun _ _ _ _ => true⟩
        ⟨["base"], [("l.csv", .csvSpecies ["Robin"])]⟩
        "l.csv" 2020 "A" 5 "base").trace ∧
    (⟨fun _ _ _ _ => true, fun _ _ _ _ => true⟩ : Caps).fetchOk "Robin" 2020 "A" 5
      = true ∧
    (⟨fun _ _ _ _ => true, fun _ _ _ _ => true⟩ : Caps).persistOk "Robin" 2020 "A" 5
      = true :=
  (C1_checkpoint_only_after_fetch_and_persist
      ⟨fun _ _ _ _ => true, fun _ _ _ _ => true⟩
      ⟨["base"], [("l.csv", .csvSpecies ["Robin"])]⟩
      "l.csv" 2020 "A" 5 "base" "Robin").1
    (download_species_data ⟨fun _ _ _ _ => true, fun _ _ _ _ => true⟩
      ⟨["base"], [("l.csv", .csvSpecies ["Robin"])]⟩ "l.csv" 2020 "A" 5 "base").trace
    ⟨[], List.append_nil _⟩ (by decide)

/-- C2: if fetch or persist raises for a species of the pending list, the
whole batch run halts: the error propagates to the caller, the trace stops
with the failing species (no retry, and no fetch, persist or checkpoint
append for any later pending species), and only the species completed before
the failure were appended to the checkpoint. -/
theorem C2_fetch_or_persist_failure_halts_run (caps : Caps) (fs : FS)
    (slp : String) (y : Int) (q : String) (mp : Int) (base : String) (fs2 : FS)
    (names c0 done rest : List String) (s : String)
    (hq : (["A", "B", "C"].contains q) = true)
    (him : initialize_metadata (initialize_download_manager fs slp y q mp base).1
      slp (download_folder_path_of slp y q mp base) = (fs2, none))
    (hrd : read_species_list fs2 slp = .ok names)
    (hck : read_ckpt fs2 (download_folder_path_of slp y q mp base) = some c0)
    (hfl : names.filter (fun x => !(c0.contains x)) = done ++ s :: rest)
    (hdone : ∀ x ∈ done, caps.fetchOk x y q mp = true ∧
      caps.persistOk x y q mp = true)
    (hfail : caps.fetchOk s y q mp = false ∨
      (caps.fetchOk s y q mp = true ∧ caps.persistOk s y q mp = false)) :
    (download_species_data caps fs slp y q mp base).err =
      some (if caps.fetchOk s y q mp then .persistFailure s
        else .fetchFailure s) ∧
    (download_species_data caps fs slp y q mp base).trace =
      ok_blocks done ++ (if caps.fetchOk s y q mp then
        [.fetch s, .persist s] else [.fetch s]) ∧
    read_ckpt (download_species_data caps fs slp y q mp base).fs
      (download_folder_path_of slp y q mp base) = some (c0 ++ done) := by
  rw [run_eq caps fs slp y q mp base hq, him]
  dsimp only
  rw [hrd]
  dsimp only
  rw [filter_ads_eq names hck, hfl]
  dsimp only
  rcases hp : process_pending caps y q mp (download_folder_path_of slp y q mp base)
      fs2 (done ++ s :: rest) with ⟨fs3, tr, err⟩
  obtain ⟨h1, h2, h3⟩ := pp_fail done fs2 c0 s rest hck hdone hfail
  rw [hp] at h1 h2 h3
  exact ⟨h1, h2, h3⟩

/-- C2 witness: with fetch failing exactly on `"Wren"`, a run over
`["Robin", "Wren", "Owl"]` halts at `"Wren"`: the fetch-failure error
propagates, the trace ends with the failing fetch (`"Owl"` is never fetched,
persisted or checkpointed), and only `"Robin"` was checkpointed. -/
theorem C2_fetch_or_persist_failure_halts_run_witness :
    (download_species_data ⟨fun n _ _ _ => n != "Wren", fun _ _ _ _ => true⟩
        ⟨["base"], [("l.csv", .csvSpecies ["Robin", "Wren", "Owl"])]⟩
        "l.csv" 2020 "A" 5 "base").err =
      some (if (⟨fun n _ _ _ => n != "Wren", fun _ _ _ _ => true⟩ : Caps).fetchOk
          "Wren" 2020 "A" 5 then .persistFailure "Wren"
        else .fetchFailure "Wren") ∧
    (download_species_data ⟨fun n _ _ _ => n != "Wren", fun _ _ _ _ => true⟩
        ⟨["base"], [("l.csv", .csvSpecies ["Robin", "Wren", "Owl"])]⟩
        "l.csv" 2020 "A" 5 "base").trace =
      ok_blocks ["Robin"] ++
        (if (⟨fun n _ _ _ => n != "Wren", fun _ _ _ _ => true⟩ : Caps).fetchOk
            "Wren" 2020 "A" 5 then [.fetch "Wren", .persist "Wren"]
          else [.fetch "Wren"]) ∧
    read_ckpt (download_species_data
        ⟨fun n _ _ _ => n != "Wren", fun _ _ _ _ => true⟩
        ⟨["base"], [("l.csv", .csvSpecies ["Robin", "Wren", "Owl"])]⟩
        "l.csv" 2020 "A" 5 "base").fs
      (download_folder_path_of "l.csv" 2020 "A" 5 "base") = some ([] ++ ["Robin"]) :=
  C2_fetch_or_persist_failure_halts_run
    ⟨fun n _ _ _ => n != "Wren", fun _ _ _ _ => true⟩
    ⟨["base"], [("l.csv", .csvSpecies ["Robin", "Wren", "Owl"])]⟩
    "l.csv" 2020 "A" 5 "base"
    ⟨["base/l_y2020_qA_mp5/metadata", "base/l_y2020_qA_mp5", "base"],
      [("base/l_y2020_qA_mp5/metadata/already_downloaded.csv", .csvCkpt []),
        ("base/l_y2020_qA_mp5/metadata/l.csv",
          .csvSpecies ["Robin", "Wren", "Owl"]),
        ("l.csv", .csvSpecies ["Robin", "Wren", "Owl"])]⟩
    ["Robin", "Wren", "Owl"] [] ["Robin"] ["Owl"] "Wren"
    (by decide) (by decide) (by rfl) (by decide) (by decide) (by decide)
    (Or.inl (by decide))

/-- C4: after a fully successful run, a second run with identical parameters
processes zero species: it returns the filesystem unchanged (in particular the
checkpoint store is unchanged), raises no error, performs no fetch, persist or
checkpoint append (whatever the capabilities of the second run), and the
pending list it computes is empty. -/
theorem C4_second_run_is_idempotent (caps caps2 : Caps) (fs : FS)
    (slp : String) (y : Int) (q : String) (mp : Int) (base : String)
    (h : (download_species_data caps fs slp y q mp base).err = none) :
    download_species_data caps2 (download_species_data caps fs slp y q mp base).fs
        slp y q mp base =
      { fs := (download_species_data caps fs slp y q mp base).fs, trace := [],
        err := none } ∧
    ∀ names, read_species_list
        (download_species_data caps fs slp y q mp base).fs slp = .ok names →
      filter_already_downloaded_species
        (download_species_data caps fs slp y q mp base).fs names
        (download_folder_path_of slp y q mp base) = .ok [] := by
  obtain ⟨fs2, names, c0, hq, him, hrd, hc, hrun, herr⟩ :=
    run_err_none caps fs slp y q mp base h
  obtain ⟨hck1, htr, hall⟩ := @pp_err_none caps y q mp
    (download_folder_path_of slp y q mp base)
    (names.filter (fun s => !(c0.contains s))) fs2 c0 hc herr
  have hfs1 : (download_species_data caps fs slp y q mp base).fs =
      (process_pending caps y q mp (download_folder_path_of slp y q mp base) fs2
        (names.filter (fun s => !(c0.contains s)))).1 := by
    rw [hrun]
  have hdfp2 : fs2.pathExists (download_folder_path_of slp y q mp base) = true := by
    have h1 := idm_pathExists_dfp fs slp y q mp base
    have h2 := initialize_metadata_pathExists_mono
      (initialize_download_manager fs slp y q mp base).1 slp
      (download_folder_path_of slp y q mp base)
      (download_folder_path_of slp y q mp base) h1
    rw [him] at h2
    exact h2
  have hmfp2 : fs2.pathExists
      (metadata_folder_path_of (download_folder_path_of slp y q mp base)) = true := by
    have h1 := initialize_metadata_pathExists_mfp
      (initialize_download_manager fs slp y q mp base).1 slp
      (download_folder_path_of slp y q mp base)
    rw [him] at h1
    exact h1
  have hdfpr : (download_species_data caps fs slp y q mp base).fs.pathExists
      (download_folder_path_of slp y q mp base) = true := by
    rw [hfs1]
    exact @pp_pathExists caps y q mp (download_folder_path_of slp y q mp base)
      (download_folder_path_of slp y q mp base) _ fs2 hdfp2
  have hmfpr : (download_species_data caps fs slp y q mp base).fs.pathExists
      (metadata_folder_path_of (download_folder_path_of slp y q mp base)) = true := by
    rw [hfs1]
    exact @pp_pathExists caps y q mp (download_folder_path_of slp y q mp base)
      (metadata_folder_path_of (download_folder_path_of slp y q mp base)) _ fs2 hmfp2
  have hslp : slp ≠ already_downloaded_path_of
      (download_folder_path_of slp y q mp base) := by
    intro hco
    have h1 := read_species_list_ok_inv hrd
    have h2 := read_ckpt_some_inv hc
    rw [hco] at h1
    rw [h1] at h2
    injection h2 with h3
    exact FileData.noConfusion h3
  have hget1 : (download_species_data caps fs slp y q mp base).fs.getFile slp =
      some (.csvSpecies names) := by
    rw [hfs1, @pp_getFile_ne caps y q mp
      (download_folder_path_of slp y q mp base) slp hslp
      (names.filter (fun s => !(c0.contains s))) fs2]
    exact read_species_list_ok_inv hrd
  have hrd2 : read_species_list
      (download_species_data caps fs slp y q mp base).fs slp = .ok names :=
    read_species_list_of_getFile hget1
  have hck2 : read_ckpt (download_species_data caps fs slp y q mp base).fs
      (download_folder_path_of slp y q mp base)
      = some (c0 ++ names.filter (fun s => !(c0.contains s))) := by
    rw [hfs1]
    exact hck1
  have hpend2 : names.filter
      (fun x => !((c0 ++ names.filter (fun s => !(c0.contains s))).contains x))
      = [] := by
    apply List.filter_eq_nil_iff.mpr
    intro a ha
    have hmem : a ∈ c0 ++ names.filter (fun s => !(c0.contains s)) := by
      by_cases hac : a ∈ c0
      · exact List.mem_append_left _ hac
      · refine List.mem_append_right _ ?_
        refine List.mem_filter.mpr ⟨ha, ?_⟩
        rw [contains_eq_false_iff.mpr hac]
        rfl
    rw [contains_iff.mpr hmem]
    simp
  have hidm : (initialize_download_manager
      (download_species_data caps fs slp y q mp base).fs slp y q mp base).1 =
      (download_species_data caps fs slp y q mp base).fs := by
    rw [idm_fst, if_pos hdfpr]
  constructor
  · rw [run_eq caps2 (download_species_data caps fs slp y q mp base).fs
      slp y q mp base hq, hidm,
      initialize_metadata_skip (download_species_data caps fs slp y q mp base).fs
        slp (download_folder_path_of slp y q mp base) hmfpr]
    dsimp only
    rw [hrd2]
    dsimp only
    rw [filter_ads_eq names hck2, hpend2]
    rfl
  · intro names2 hrd2'
    rw [hrd2] at hrd2'
    injection hrd2' with hn
    subst hn
    rw [filter_ads_eq names hck2, hpend2]

/-- C4 witness: after a successful run over `["Robin", "Wren"]`, a second run
with identical parameters (and even all-failing capabilities) returns the
state unchanged with an empty trace and no error, and computes an empty
pending list. -/
theorem C4_second_run_is_idempotent_witness :
    download_species_data ⟨fun _ _ _ _ => false, fun _ _ _ _ => false⟩
        (download_species_data ⟨fun _ _ _ _ => true, fun _ _ _ _ => true⟩
          ⟨["base"], [("l.csv", .csvSpecies ["Robin", "Wren"])]⟩
          "l.csv" 2020 "A" 5 "base").fs "l.csv" 2020 "A" 5 "base" =
      { fs := (download_species_data ⟨fun _ _ _ _ => true, fun _ _ _ _ => true⟩
          ⟨["base"], [("l.csv", .csvSpecies ["Robin", "Wren"])]⟩
          "l.csv" 2020 "A" 5 "base").fs, trace := [], err := none } ∧
    ∀ names, read_species_list
        (download_species_data ⟨fun _ _ _ _ => true, fun _ _ _ _ => true⟩
          ⟨["base"], [("l.csv", .csvSpecies ["Robin", "Wren"])]⟩
          "l.csv" 2020 "A" 5 "base").fs "l.csv" = .ok names →
      filter_already_downloaded_species
        (download_species_data ⟨fun _ _ _ _ => true, fun _ _ _ _ => true⟩
          ⟨["base"], [("l.csv", .csvSpecies ["Robin", "Wren"])]⟩
          "l.csv" 2020 "A" 5 "base").fs names
        (download_folder_path_of "l.csv" 2020 "A" 5 "base") = .ok [] :=
  C4_second_run_is_idempotent ⟨fun _ _ _ _ => true, fun _ _ _ _ => true⟩
    ⟨fun _ _ _ _ => false, fun _ _ _ _ => false⟩
    ⟨["base"], [("l.csv", .csvSpecies ["Robin", "Wren"])]⟩
    "l.csv" 2020 "A" 5 "base" (by decide)

/-- C5 counterexample: a species list containing the same name twice makes a
single successful run append that name twice to the checkpoint store, so a
species name can appear more than once. -/
theorem C5_duplicate_name_appears_twice_in_checkpoint :
    (download_species_data ⟨fun _ _ _ _ => true, fun _ _ _ _ => true⟩
        ⟨["base"], [("l.csv", .csvSpecies ["Robin", "Robin"])]⟩
        "l.csv" 2020 "A" 5 "base").err = none ∧
    read_ckpt ⟨["base"], [("l.csv", .csvSpecies ["Robin", "Robin"])]⟩
      (download_folder_path_of "l.csv" 2020 "A" 5 "base") = none ∧
    read_ckpt (download_species_data ⟨fun _ _ _ _ => true, fun _ _ _ _ => true⟩
        ⟨["base"], [("l.csv", .csvSpecies ["Robin", "Robin"])]⟩
        "l.csv" 2020 "A" 5 "base").fs
      (download_folder_path_of "l.csv" 2020 "A" 5 "base")
      = some ["Robin", "Robin"] ∧
    ((read_ckpt (download_species_data ⟨fun _ _ _ _ => true, fun _ _ _ _ => true⟩
        ⟨["base"], [("l.csv", .csvSpecies ["Robin", "Robin"])]⟩
        "l.csv" 2020 "A" 5 "base").fs
      (download_folder_path_of "l.csv" 2020 "A" 5 "base")).getD []).count "Robin"
      = 2 := by
  decide

/-- C5 (amended): across any sequence of runs against the same Batch Identity,
starting from a state whose metadata folder exists and whose checkpoint store
is readable, the checkpoint store only grows — its prior contents remain a
prefix and no entry is ever removed; and no species name ever appears more
than once provided the initial checkpoint has no duplicates, the species-list
path is not the checkpoint path, and the species list contains no duplicate
names. -/
theorem C5_checkpoint_grows_and_nodup_without_duplicates (runs : List Caps)
    (fs : FS) (slp : String) (y : Int) (q : String) (mp : Int) (base : String)
    (c0 : List String)
    (hmfp : fs.pathExists
      (metadata_folder_path_of (download_folder_path_of slp y q mp base)) = true)
    (hck : read_ckpt fs (download_folder_path_of slp y q mp base) = some c0) :
    ∃ c1, read_ckpt (run_sequence runs fs slp y q mp base)
        (download_folder_path_of slp y q mp base) = some c1 ∧
      c0 <+: c1 ∧
      (c0.Nodup →
        slp ≠ already_downloaded_path_of (download_folder_path_of slp y q mp base) →
        (∀ names, read_species_list fs slp = .ok names → names.Nodup) →
        c1.Nodup) := by
  induction runs generalizing fs c0 with
  | nil => exact ⟨c0, hck, ⟨[], List.append_nil _⟩, fun h0 _ _ => h0⟩
  | cons cap runs' ih =>
    obtain ⟨hmfp', hframe, hgrow⟩ := run_preserves cap fs slp y q mp base hmfp
    obtain ⟨d, hck', hd⟩ := hgrow c0 hck
    obtain ⟨c1, hckf, hpre, hnd⟩ := ih _ _ hmfp' hck'
    refine ⟨c1, hckf, ?_, ?_⟩
    · obtain ⟨u, hu⟩ := hpre
      exact ⟨d ++ u, by rw [← List.append_assoc, hu]⟩
    · intro h0 hne hnames
      apply hnd
      · rcases hd with rfl | ⟨names, rest2, hrdx, hsplit⟩
        · simpa using h0
        · have hn : names.Nodup := hnames names hrdx
          have hfiln : (names.filter (fun x => !(c0.contains x))).Nodup :=
            List.Nodup.filter _ hn
          have hdsub : d.Sublist (names.filter (fun x => !(c0.contains x))) := by
            rw [hsplit]
            exact List.sublist_append_left d rest2
          have hdn : d.Nodup := List.Nodup.sublist hdsub hfiln
          refine List.Nodup.append h0 hdn ?_
          intro a hac had
          have hmemf : a ∈ names.filter (fun x => !(c0.contains x)) :=
            hdsub.subset had
          have := (List.mem_filter.mp hmemf).2
          rw [contains_iff.mpr hac] at this
          exact Bool.noConfusion this
      · exact hne
      · intro names2 h2
        rw [read_species_list_congr (hframe slp hne)] at h2
        exact hnames names2 h2

/-- C5 (amended) witness: a two-run sequence over a duplicate-free list
starting from an empty checkpoint satisfies the growth and no-duplicates
conclusion. -/
theorem C5_checkpoint_grows_and_nodup_without_duplicates_witness :
    ∃ c1, read_ckpt (run_sequence
        [⟨fun _ _ _ _ => true, fun _ _ _ _ => true⟩,
          ⟨fun _ _ _ _ => true, fun _ _ _ _ => true⟩]
        ⟨["base/l_y2020_qA_mp5/metadata", "base/l_y2020_qA_mp5", "base"],
          [("base/l_y2020_qA_mp5/metadata/already_downloaded.csv", .csvCkpt []),
            ("l.csv", .csvSpecies ["Robin", "Wren"])]⟩
        "l.csv" 2020 "A" 5 "base")
        (download_folder_path_of "l.csv" 2020 "A" 5 "base") = some c1 ∧
      ([] : List String) <+: c1 ∧
      (([] : List String).Nodup →
        "l.csv" ≠ already_downloaded_path_of
          (download_folder_path_of "l.csv" 2020 "A" 5 "base") →
        (∀ names, read_species_list
            ⟨["base/l_y2020_qA_mp5/metadata", "base/l_y2020_qA_mp5", "base"],
              [("base/l_y2020_qA_mp5/metadata/already_downloaded.csv", .csvCkpt []),
                ("l.csv", .csvSpecies ["Robin", "Wren"])]⟩ "l.csv" = .ok names →
          names.Nodup) →
        c1.Nodup) :=
  C5_checkpoint_grows_and_nodup_without_duplicates
    [⟨fun _ _ _ _ => true, fun _ _ _ _ => true⟩,
      ⟨fun _ _ _ _ => true, fun _ _ _ _ => true⟩]
    ⟨["base/l_y2020_qA_mp5/metadata", "base/l_y2020_qA_mp5", "base"],
      [("base/l_y2020_qA_mp5/metadata/already_downloaded.csv", .csvCkpt []),
        ("l.csv", .csvSpecies ["Robin", "Wren"])]⟩
    "l.csv" 2020 "A" 5 "base" [] (by decide) (by decide)

/-- C8 counterexample: with the species-list file missing, the run fails with
the source-unavailable error, yet the batch output folder and the metadata
folder — neither of which existed before — were created by that run. -/
theorem C8_failing_load_still_creates_folders :
    (download_species_data ⟨fun _ _ _ _ => true, fun _ _ _ _ => true⟩
        ⟨["base"], []⟩ "list.csv" 2020 "A" 5 "base").err =
      some .sourceUnavailable ∧
    FS.pathExists ⟨["base"], []⟩
      (download_folder_path_of "list.csv" 2020 "A" 5 "base") = false ∧
    FS.pathExists ⟨["base"], []⟩
      (metadata_folder_path_of
        (download_folder_path_of "list.csv" 2020 "A" 5 "base")) = false ∧
    (download_species_data ⟨fun _ _ _ _ => true, fun _ _ _ _ => true⟩
        ⟨["base"], []⟩ "list.csv" 2020 "A" 5 "base").fs.pathExists
      (download_folder_path_of "list.csv" 2020 "A" 5 "base") = true ∧
    (download_species_data ⟨fun _ _ _ _ => true, fun _ _ _ _ => true⟩
        ⟨["base"], []⟩ "list.csv" 2020 "A" 5 "base").fs.pathExists
      (metadata_folder_path_of
        (download_folder_path_of "list.csv" 2020 "A" 5 "base")) = true := by
  decide

/-- C8 (amended): a run that fails because the species list cannot be loaded
fails before any species processing: no fetch, persist or checkpoint append
occurs (the trace is empty), and no checkpoint entry is created — the
checkpoint file is either unchanged from before the run or freshly
initialized empty (the batch output and metadata folders may however be
created by the failing run). -/
theorem C8_source_unavailable_fails_before_processing (caps : Caps) (fs : FS)
    (slp : String) (y : Int) (q : String) (mp : Int) (base : String)
    (h : (download_species_data caps fs slp y q mp base).err =
      some .sourceUnavailable) :
    (download_species_data caps fs slp y q mp base).trace = [] ∧
    (read_ckpt (download_species_data caps fs slp y q mp base).fs
        (download_folder_path_of slp y q mp base) =
      read_ckpt fs (download_folder_path_of slp y q mp base) ∨
    read_ckpt (download_species_data caps fs slp y q mp base).fs
        (download_folder_path_of slp y q mp base) = some []) := by
  cases hq : (["A", "B", "C"].contains q) with
  | false =>
    rw [run_quality_invalid caps fs slp y q mp base hq] at h
    simp at h
  | true =>
    rw [run_eq caps fs slp y q mp base hq] at h
    rw [run_eq caps fs slp y q mp base hq]
    split at h
    next fs2 e heq =>
      refine ⟨rfl, ?_⟩
      have h1 := initialize_metadata_read_ckpt
        (initialize_download_manager fs slp y q mp base).1 slp
        (download_folder_path_of slp y q mp base)
      rw [heq] at h1
      rcases h1 with h1 | h1
      · left
        rw [show ((fs2, some e) : FS × Option DlError).1 = fs2 from rfl] at h1
        rw [h1, idm_read_ckpt]
      · right
        rw [show ((fs2, some e) : FS × Option DlError).1 = fs2 from rfl] at h1
        exact h1
    next fs2 heq =>
      split at h
      next e hrd =>
        refine ⟨rfl, ?_⟩
        have h1 := initialize_metadata_read_ckpt
          (initialize_download_manager fs slp y q mp base).1 slp
          (download_folder_path_of slp y q mp base)
        rw [heq] at h1
        rcases h1 with h1 | h1
        · left
          rw [show ((fs2, (none : Option DlError)) : FS × Option DlError).1 = fs2
            from rfl] at h1
          rw [h1, idm_read_ckpt]
        · right
          rw [show ((fs2, (none : Option DlError)) : FS × Option DlError).1 = fs2
            from rfl] at h1
          exact h1
      next names hrd =>
        split at h
        next e hfl =>
          have he : e = .checkpointUnreadable := filter_ads_err_inv hfl
          subst he
          simp at h
        next pending hfl =>
          split at h
          next fs3 tr err hp =>
            simp only at h
            have hne := (@pp_err_ne caps y q mp
              (download_folder_path_of slp y q mp base) pending fs2).1
            rw [hp] at hne
            exact absurd h hne

/-- C8 (amended) witness: the failing run of the counterexample input indeed
has an empty trace and creates no checkpoint entry. -/
theorem C8_source_unavailable_fails_before_processing_witness :
    (download_species_data ⟨fun _ _ _ _ => true, fun _ _ _ _ => true⟩
        ⟨["base"], []⟩ "list.csv" 2020 "A" 5 "base").trace = [] ∧
    (read_ckpt (download_species_data ⟨fun _ _ _ _ => true, fun _ _ _ _ => true⟩
        ⟨["base"], []⟩ "list.csv" 2020 "A" 5 "base").fs
        (download_folder_path_of "list.csv" 2020 "A" 5 "base") =
      read_ckpt ⟨["base"], []⟩ (download_folder_path_of "list.csv" 2020 "A" 5 "base") ∨
    read_ckpt (download_species_data ⟨fun _ _ _ _ => true, fun _ _ _ _ => true⟩
        ⟨["base"], []⟩ "list.csv" 2020 "A" 5 "base").fs
        (download_folder_path_of "list.csv" 2020 "A" 5 "base") = some []) :=
  C8_source_unavailable_fails_before_processing
    ⟨fun _ _ _ _ => true, fun _ _ _ _ => true⟩ ⟨["base"], []⟩
    "list.csv" 2020 "A" 5 "base" (by decide)

end ChirpNet
